import Mathlib

/-!
Verification of the generation-and-synchronization pipeline of the AI course
designer (source: src/App.jsx).  The JavaScript source is shallowly embedded:
asynchronous effects are made explicit (the retry wrapper records its sleeps
and call count; the document store is a record of collection lists plus an
operation log), machine-level JSON numbers are modelled as rationals, and
fallible paths return explicit error values.
-/

namespace AICourse

/-! ### Resilient Caller (src/App.jsx, `withRetry`, lines 48-60)

The wrapped asynchronous thunk is modelled as a function from the attempt
index (0-based) to an `Except` outcome; the model records the returned (or
thrown) value, the list of sleep durations performed between attempts, and
the number of invocations of the thunk. -/

/-- Outcome of a `withRetry` run: `result` is `none` only when the loop runs
zero iterations (`maxRetries = 0`, where the JS function returns `undefined`);
`sleeps` lists the delays awaited between attempts, in order; `calls` counts
invocations of the wrapped thunk. -/
structure RetryResult (E A : Type) where
  result : Option (Except E A)
  sleeps : List Nat
  calls : Nat
deriving Repr

instance instDecEqExcept {E A : Type} [DecidableEq E] [DecidableEq A] :
    DecidableEq (Except E A) :=
  fun x y =>
    match x, y with
    | .error e1, .error e2 => decidable_of_iff (e1 = e2) (by simp)
    | .error _, .ok _ => isFalse (fun h => Except.noConfusion h)
    | .ok _, .error _ => isFalse (fun h => Except.noConfusion h)
    | .ok a1, .ok a2 => decidable_of_iff (a1 = a2) (by simp)

instance instDecEqRetryResult {E A : Type} [DecidableEq E] [DecidableEq A] :
    DecidableEq (RetryResult E A) :=
  fun x y =>
    match x, y with
    | ⟨r1, s1, c1⟩, ⟨r2, s2, c2⟩ =>
      decidable_of_iff (r1 = r2 ∧ s1 = s2 ∧ c1 = c2)
        (iff_of_eq (RetryResult.mk.injEq r1 s1 c1 r2 s2 c2)).symm

/-- Translation of the retry loop body: `i` is the current attempt index,
`delay` the current backoff delay, and `remaining` the number of loop
iterations left (`maxRetries - i`).  On failure at the last iteration
(`remaining = 1`, i.e. `i === maxRetries - 1`) the error is rethrown without
sleeping; otherwise the loop sleeps `delay`, doubles it and retries. -/
def withRetryGo {E A : Type} (fn : Nat → Except E A) :
    Nat → Nat → Nat → RetryResult E A
  | _, _, 0 => ⟨none, [], 0⟩
  | i, delay, remaining + 1 =>
    match fn i with
    | .ok v => ⟨some (.ok v), [], 1⟩
    | .error e =>
      if remaining = 0 then ⟨some (.error e), [], 1⟩
      else
        let rest := withRetryGo fn (i + 1) (delay * 2) remaining
        ⟨rest.result, delay :: rest.sleeps, rest.calls + 1⟩

/-- `withRetry(fn, maxRetries = 5)` (the source's default argument is 5, and
every call site uses it): `let delay = 1000` then the `for` loop over
attempts `0 .. maxRetries-1`. -/
def withRetry {E A : Type} (fn : Nat → Except E A) (maxRetries : Nat) :
    RetryResult E A :=
  withRetryGo fn 0 1000 maxRetries

/-! ### Generation Client (src/App.jsx, `callGeminiApi`, lines 299-380) -/

/-- Shape of a `responseSchema` declared to the generation service
(`payload.generationConfig.responseSchema`). -/
inductive SchemaShape where
  | str : SchemaShape
  | num : SchemaShape
  | arrayOf : SchemaShape → SchemaShape
  | objectOf : List (String × SchemaShape) → SchemaShape
deriving Repr

/-- Properties of the single-object (lab) schema, as declared at
src/App.jsx lines 339-346. -/
def labObjectProps : List (String × SchemaShape) :=
  [("problemStatement", .str),
   ("steps", .arrayOf .str),
   ("expectedOutcome", .str)]

/-- Properties of the items of the generic array schema, as declared at
src/App.jsx lines 315-331. -/
def genericItemProps : List (String × SchemaShape) :=
  [("title", .str),
   ("objective", .str),
   ("topic_title", .str),
   ("content_draft", .str),
   ("question", .str),
   ("options", .arrayOf .str),
   ("correct_answer_index", .num),
   ("problemStatement", .str),
   ("steps", .arrayOf .str),
   ("expectedOutcome", .str)]

/-- Boolean test that `pat` occurs at the start of `s` (character lists);
used to model `String.prototype.includes`. -/
def leadsWith : List Char → List Char → Bool
  | [], _ => true
  | _ :: _, [] => false
  | a :: pat, b :: s => a == b && leadsWith pat s

/-- Boolean substring search over character lists: `pat` occurs somewhere in
`s`.  Models `String.prototype.includes`. -/
def hasSubChars (pat : List Char) : List Char → Bool
  | [] => pat.isEmpty
  | b :: s => leadsWith pat (b :: s) || hasSubChars pat s

/-- Model of `systemPrompt.includes(pat)`. -/
def jsIncludes (s pat : String) : Bool :=
  hasSubChars pat.toList s.toList

/-- The marker text tested by `callGeminiApi` to decide that a single object
(rather than a list) is expected (src/App.jsx line 338). -/
def singleObjectMarker : String := "single JSON object"

/-- Schema declared by `callGeminiApi` when `isJson` is true: the generic
array schema is installed first and then overwritten with the single-object
lab schema when the system prompt contains the marker text (net effect of
src/App.jsx lines 311-348).  `none` when `isJson` is false (no
`generationConfig` is attached). -/
def declaredResponseSchema (systemPrompt : String) (isJson : Bool) :
    Option SchemaShape :=
  if isJson then
    if jsIncludes systemPrompt singleObjectMarker then
      some (.objectOf labObjectProps)
    else
      some (.arrayOf (.objectOf genericItemProps))
  else
    none

/-- Model of `String.prototype.trim`: whitespace removed from both ends.
(The built-in `String.trim` is defined by well-founded recursion and is not
usable for concrete evaluation, so the model carries its own structural
definition over the character list.) -/
def jsTrim (s : String) : String :=
  ⟨((s.data.dropWhile Char.isWhitespace).reverse.dropWhile
      Char.isWhitespace).reverse⟩

/-- Errors thrown by `callGeminiApi` (src/App.jsx lines 356-378). -/
inductive ApiError where
  | httpError (status : Nat) (body : String)
  | noContent
  | invalidJson (raw : String)
deriving Repr, DecidableEq

/-- The service's reply, as far as `callGeminiApi` inspects it: either a
non-2xx HTTP response, or a 2xx response whose first candidate's first part
text is modelled as `Option String` (`none` when
`result.candidates?.[0]?.content?.parts?.[0]?.text` is absent). -/
inductive ServiceResp where
  | httpFailure (status : Nat) (body : String)
  | success (candidateText : Option String)
deriving Repr, DecidableEq

/-- Post-`fetch` processing of one `callGeminiApi` round trip (src/App.jsx
lines 356-379), parameterised over the host JSON parser `parse` (`JSON.parse`;
`none` models a parse exception).  An absent candidate text, and likewise an
empty text (falsy in the JS truthiness test on line 364), yield the
no-content error; with `isJson` set, unparseable trimmed text yields
`invalidJson` carrying the raw trimmed text; otherwise the parsed value
(left) or the plain trimmed text (right) is returned. -/
def processGeminiResponse {J : Type} (parse : String → Option J)
    (isJson : Bool) (resp : ServiceResp) : Except ApiError (J ⊕ String) :=
  match resp with
  | .httpFailure status body => .error (.httpError status body)
  | .success none => .error .noContent
  | .success (some t) =>
    if t = "" then .error .noContent
    else
      let rawText := jsTrim t
      if isJson then
        match parse rawText with
        | some j => .ok (.inl j)
        | none => .error (.invalidJson rawText)
      else
        .ok (.inr rawText)

/-- One orchestrator-issued structured generation request: `withRetry`
wrapping `callGeminiApi` with `isJson = true`, where `resp i` is the service's
reply to the `i`-th attempt (src/App.jsx lines 394-396, 445-447, 485-487,
536-538). -/
def generationCall {J : Type} (parse : String → Option J)
    (resp : Nat → ServiceResp) : RetryResult ApiError (J ⊕ String) :=
  withRetry (fun i => processGeminiResponse parse true (resp i)) 5

/-! ### Content Repository / document store

The four per-user Firestore collections (`courses`, `modules`, `topics`,
`assets`) are modelled as lists of records inside one `Store`.  Firestore
assigns document ids on `addDoc`; the model assigns them from a counter
`nextId`, so ids are unique and increasing.  Every `addDoc`/`deleteDoc` the
workflows issue is also appended to an operation log `log`, so that the
order of remote writes ("delete before insert") is visible to theorems.
The `createdAt: new Date()` timestamps are not modelled. -/

/-- A `courses` document (src/App.jsx lines 420-425). -/
structure CourseRec where
  id : Nat
  title : String
  status : String
  userId : String
deriving Repr, DecidableEq

/-- A `modules` document (src/App.jsx lines 433-439).  `title` and
`objective` are copied from the parsed generation output, whose fields may be
absent (`none`). -/
structure ModuleRec where
  id : Nat
  courseId : Nat
  title : Option String
  objective : Option String
  order : Nat
deriving Repr, DecidableEq

/-- A `topics` document (src/App.jsx lines 452-458).  `title` and `content`
are always strings because the handler substitutes placeholders for absent
fields. -/
structure TopicRec where
  id : Nat
  moduleId : Nat
  title : String
  content : String
  order : Nat
deriving Repr, DecidableEq

/-- Payload of an `assets` document: either an MCQ (src/App.jsx lines
503-511) or a lab (lines 552-560). -/
inductive AssetPayload where
  | mcq (question : Option String) (options : Option (List String))
      (correctIndex : Rat)
  | lab (title : String) (problemStatement : Option String)
      (steps : Option (List String)) (expectedOutcome : Option String)
deriving Repr, DecidableEq

/-- An `assets` document; `type` is the stored discriminator string
(`"mcq"` or `"lab"`). -/
structure AssetRec where
  id : Nat
  topicId : Nat
  type : String
  payload : AssetPayload
deriving Repr, DecidableEq

/-- One remote write issued against the document store. -/
inductive Op where
  | deleteCourse (id : Nat)
  | addCourse (id : Nat)
  | addModule (id : Nat)
  | addTopic (id : Nat)
  | deleteAsset (id : Nat)
  | addAsset (id : Nat)
deriving Repr, DecidableEq

/-- The per-user document store: the four collections, the id counter used
by `addDoc`, and the log of writes issued so far. -/
structure Store where
  courses : List CourseRec
  modules : List ModuleRec
  topics : List TopicRec
  assets : List AssetRec
  nextId : Nat
  log : List Op
deriving Repr, DecidableEq

/-! ### Workflow-level errors -/

/-- A workflow-level error: either an error propagated from the generation
call, or one of the `throw new Error(...)` structural validation failures. -/
inductive GenError where
  | api (e : ApiError)
  | generationFailed (msg : String)
deriving Repr, DecidableEq

/-! ### Pipeline Orchestrator: generate-course
(src/App.jsx, `handleGenerateCourse`, lines 383-471)

The two kinds of generation results are passed in already parsed: `mr` is
the outcome of the module-structure call, `tr i` the outcome of the topic
call for the `i`-th module.  `Except.ok none` models a reply that parsed but
is not an array (`Array.isArray` fails); `Except.ok (some l)` an array `l`.
Each handler returns the resulting store paired with the error captured by
the surrounding `try/catch` (if any); writes issued before a failure remain
in the store, as they do against the real remote store. -/

/-- A parsed module item of the module-structure reply: `title` and
`objective` fields, each possibly absent. -/
structure GenModule where
  title : Option String
  objective : Option String
deriving Repr, DecidableEq

/-- A parsed topic item of a topic reply: `topic_title` and `content_draft`
fields, each possibly absent. -/
structure GenTopic where
  topic_title : Option String
  content_draft : Option String
deriving Repr, DecidableEq

/-- JS `v || d` for an optional string `v`: the default is used when the
field is absent (`undefined`) or the empty string (both falsy). -/
def jsOrString (v : Option String) (d : String) : String :=
  match v with
  | some s => if s = "" then d else s
  | none => d

/-- The `topics` record written for the `j`-th (0-based) topic of module
`mid` when the store counter is at `n` (src/App.jsx lines 452-458):
placeholder title `"Topic (j+1)"` and placeholder content when fields are
absent or empty, order `j + 1`. -/
def mkTopicRec (mid j n : Nat) (t : GenTopic) : TopicRec :=
  ⟨n, mid, jsOrString t.topic_title ("Topic " ++ toString (j + 1)),
   jsOrString t.content_draft "Content draft pending.", j + 1⟩

/-- The inner `for (let j ...)` loop of `handleGenerateCourse` (lines
450-459): insert one `topics` document per parsed topic item, sequentially.
`j` is the index of the next topic. -/
def addTopicsFrom (mid : Nat) : Nat → List GenTopic → Store → Store
  | _, [], s => s
  | j, t :: ts, s =>
    addTopicsFrom mid (j + 1) ts
      { s with
        topics := s.topics ++ [mkTopicRec mid j s.nextId t],
        nextId := s.nextId + 1,
        log := s.log ++ [Op.addTopic s.nextId] }

/-- The `modules` record written for the `i`-th (0-based) module item when
the store counter is at `n` (src/App.jsx lines 433-439): order `i + 1`,
foreign key `cid`. -/
def mkModuleRec (cid i n : Nat) (m : GenModule) : ModuleRec :=
  ⟨n, cid, m.title, m.objective, i + 1⟩

/-- The outer `for (let i ...)` loop of `handleGenerateCourse` (lines
429-461): insert the `modules` document, then issue the topic generation
call; on its failure the loop aborts with the module already persisted; on a
non-array parsed reply (`Array.isArray` false) no topic is inserted and the
loop continues; on an array reply the topics are inserted and the loop
continues. -/
def courseModulesLoop (cid : Nat)
    (tr : Nat → Except ApiError (Option (List GenTopic))) :
    Nat → List GenModule → Store → Store × Option ApiError
  | _, [], s => (s, none)
  | i, m :: ms, s =>
    let s1 : Store :=
      { s with
        modules := s.modules ++ [mkModuleRec cid i s.nextId m],
        nextId := s.nextId + 1,
        log := s.log ++ [Op.addModule s.nextId] }
    match tr i with
    | .error e => (s1, some e)
    | .ok none => courseModulesLoop cid tr (i + 1) ms s1
    | .ok (some ts) =>
      courseModulesLoop cid tr (i + 1) ms (addTopicsFrom s.nextId 0 ts s1)

/-- The cleanup step of `handleGenerateCourse` (lines 410-413): read all
`courses` documents of the caller and delete each one. -/
def deleteAllCourses (s : Store) : Store :=
  { s with
    courses := [],
    log := s.log ++ s.courses.map (fun c => Op.deleteCourse c.id) }

/-- `handleGenerateCourse` (src/App.jsx lines 383-471): guard on a blank
course name (falsy or whitespace-only, lines 384); module-structure
generation call (`mr`); `GenerationFailed` when the parsed reply is not a
non-empty array (lines 398-400); delete every existing course; insert the
new course with status `draft`; then the module/topic loop.  The final store
is returned together with the error recorded by the `catch` block, if
any. -/
def handleGenerateCourse (courseName userId : String)
    (mr : Except ApiError (Option (List GenModule)))
    (tr : Nat → Except ApiError (Option (List GenTopic)))
    (s : Store) : Store × Option GenError :=
  if jsTrim courseName = "" then (s, none)
  else
    match mr with
    | .error e => (s, some (.api e))
    | .ok none => (s, some (.generationFailed "AI failed to generate module structure."))
    | .ok (some ms) =>
      if ms.isEmpty then
        (s, some (.generationFailed "AI failed to generate module structure."))
      else
        let s1 := deleteAllCourses s
        let s2 : Store :=
          { s1 with
            courses := s1.courses ++ [⟨s1.nextId, courseName, "draft", userId⟩],
            nextId := s1.nextId + 1,
            log := s1.log ++ [Op.addCourse s1.nextId] }
        match courseModulesLoop s1.nextId tr 0 ms s2 with
        | (s3, none) => (s3, none)
        | (s3, some e) => (s3, some (.api e))

/-! ### Pipeline Orchestrator: generate-assessment
(src/App.jsx, `handleGenerateMCQs`, lines 474-522) -/

/-- A parsed MCQ item of the assessment reply.  The declared response schema
types `correct_answer_index` as NUMBER, so a parsed item carries either a
JSON number (modelled as a rational) or no usable value; `none` covers an
absent field and any value whose JS `Number(...)` coercion is `NaN`. -/
structure GenMcq where
  question : Option String
  options : Option (List String)
  correct_answer_index : Option Rat
deriving Repr, DecidableEq

/-- `Number(mcq.correct_answer_index) || 0` (src/App.jsx line 509):
`Number` of an absent/invalid value is `NaN`, which `|| 0` replaces by `0`;
a numeric value passes through unchanged, except that `0` (falsy) also
yields `0` -- which is the same number. -/
def coercedCorrectIndex (ci : Option Rat) : Rat :=
  match ci with
  | none => 0
  | some q => if q = 0 then 0 else q

/-- The `assets` record written for one MCQ item at counter `n`
(src/App.jsx lines 503-511). -/
def mkMcqAssetRec (topicId n : Nat) (m : GenMcq) : AssetRec :=
  ⟨n, topicId, "mcq",
   .mcq m.question m.options (coercedCorrectIndex m.correct_answer_index)⟩

/-- The deletion loop over the local `mcqs` slice (src/App.jsx lines
497-500): each listed document id is deleted from the `assets` collection in
turn. -/
def deleteAssetsLoop : List Nat → Store → Store
  | [], s => s
  | i :: is, s =>
    deleteAssetsLoop is
      { s with
        assets := s.assets.filter (fun a => a.id ≠ i),
        log := s.log ++ [Op.deleteAsset i] }

/-- The insertion loop over the generated MCQ items (src/App.jsx lines
502-512). -/
def addMcqAssetsLoop (topicId : Nat) : List GenMcq → Store → Store
  | [], s => s
  | m :: ms, s =>
    addMcqAssetsLoop topicId ms
      { s with
        assets := s.assets ++ [mkMcqAssetRec topicId s.nextId m],
        nextId := s.nextId + 1,
        log := s.log ++ [Op.addAsset s.nextId] }

/-- `handleGenerateMCQs` (src/App.jsx lines 474-522) for the active topic
`topicId`: `items` is the parsed outcome of the MCQ generation call
(`Except.ok none` = parsed but not an array); `mcqsSlice` is the list of
asset ids held by the local `mcqs` state slice, which the handler deletes
before inserting the new items. -/
def handleGenerateMCQs (topicId : Nat) (mcqsSlice : List Nat)
    (items : Except ApiError (Option (List GenMcq)))
    (s : Store) : Store × Option GenError :=
  match items with
  | .error e => (s, some (.api e))
  | .ok none => (s, some (.generationFailed "AI failed to generate MCQs."))
  | .ok (some l) =>
    if l.isEmpty then (s, some (.generationFailed "AI failed to generate MCQs."))
    else (addMcqAssetsLoop topicId l (deleteAssetsLoop mcqsSlice s), none)

/-! ### Pipeline Orchestrator: generate-lab
(src/App.jsx, `handleGenerateLab`, lines 525-570) -/

/-- A parsed lab object of the lab reply: the three declared fields, each
possibly absent. -/
structure GenLab where
  problemStatement : Option String
  steps : Option (List String)
  expectedOutcome : Option String
deriving Repr, DecidableEq

/-- JS falsiness of an optional string field: absent or empty. -/
def jsFalsyString (v : Option String) : Bool :=
  match v with
  | none => true
  | some s => s == ""

/-- The `assets` record written for the generated lab at counter `n`
(src/App.jsx lines 552-560); `title` is derived from the active topic's
title. -/
def mkLabAssetRec (topicId n : Nat) (topicTitle : String) (g : GenLab) :
    AssetRec :=
  ⟨n, topicId, "lab",
   .lab (topicTitle ++ " Practice Lab") g.problemStatement g.steps
     g.expectedOutcome⟩

/-- `handleGenerateLab` (src/App.jsx lines 525-570) for the active topic
`topicId` with title `topicTitle`: `labData` is the parsed outcome of the
lab generation call (`Except.ok none` = falsy or non-object reply);
`GenerationFailed` when the reply or its `problemStatement` is falsy (line
540); `labSlice` is the id held by the local `lab` state slice, deleted (if
present) before the new lab asset is inserted. -/
def handleGenerateLab (topicId : Nat) (topicTitle : String)
    (labSlice : Option Nat) (labData : Except ApiError (Option GenLab))
    (s : Store) : Store × Option GenError :=
  match labData with
  | .error e => (s, some (.api e))
  | .ok none => (s, some (.generationFailed "AI failed to generate lab instructions."))
  | .ok (some g) =>
    if jsFalsyString g.problemStatement then
      (s, some (.generationFailed "AI failed to generate lab instructions."))
    else
      let s1 : Store :=
        match labSlice with
        | some lid =>
          { s with
            assets := s.assets.filter (fun a => a.id ≠ lid),
            log := s.log ++ [Op.deleteAsset lid] }
        | none => s
      ({ s1 with
         assets := s1.assets ++ [mkLabAssetRec topicId s1.nextId topicTitle g],
         nextId := s1.nextId + 1,
         log := s1.log ++ [Op.addAsset s1.nextId] }, none)

/-! ### Sync Engine slices over the store

The asset subscriptions (src/App.jsx lines 235-258) filter the `assets`
collection by `topicId` and `type`; the `lab` subscription has
single-document semantics (`snapshot.docs[0]`, absence yields `null`). -/

/-- The store's `mcq` assets for a topic, in collection order: result set of
the `mcqQuery` subscription (lines 235-238). -/
def mcqAssetsOf (topicId : Nat) (s : Store) : List AssetRec :=
  s.assets.filter (fun a => a.topicId == topicId && a.type == "mcq")

/-- The store's `lab` assets for a topic, in collection order: result set of
the `labQuery` subscription (lines 239-242). -/
def labAssetsOf (topicId : Nat) (s : Store) : List AssetRec :=
  s.assets.filter (fun a => a.topicId == topicId && a.type == "lab")

/-- The value held by the local `lab` slice when it reflects the store:
the first matching document's id, or `none` (lines 250-258). -/
def labSliceOf (topicId : Nat) (s : Store) : Option Nat :=
  (labAssetsOf topicId s).head?.map (fun a => a.id)

/-- One generate-lab invocation issued with the local lab slice reflecting
the store: the store left behind (a failed run leaves it unchanged -- see
`handleGenerateLab`). -/
def runLabStep (topicId : Nat) (topicTitle : String)
    (labData : Except ApiError (Option GenLab)) (s : Store) : Store :=
  (handleGenerateLab topicId topicTitle (labSliceOf topicId s) labData s).1

/-- A finite sequence of generate-lab invocations on one topic, each issued
with the local lab slice reflecting the store at that point. -/
def runLabSeq (topicId : Nat) (topicTitle : String) :
    List (Except ApiError (Option GenLab)) → Store → Store
  | [], s => s
  | d :: ds, s => runLabSeq topicId topicTitle ds (runLabStep topicId topicTitle d s)

/-! ### Sync Engine: modules subscription
(src/App.jsx, `onSnapshot` callback, lines 185-196) -/

/-- The local view state touched by the modules subscription callback. -/
structure ViewState where
  modules : List ModuleRec
  activeModule : Option ModuleRec
  currentView : String
deriving Repr, DecidableEq

/-- JS `moduleList.sort((a, b) => a.order - b.order)`: a stable ascending
sort by `order` (ECMAScript `Array.prototype.sort` is stable). -/
def sortModulesByOrder (l : List ModuleRec) : List ModuleRec :=
  l.mergeSort (fun a b => a.order ≤ b.order)

/-- The modules-subscription callback (src/App.jsx lines 185-196): the
snapshot `docs` replaces the local `modules` slice after an in-place
ascending sort by `order`; then, when the current view is the module or
topic view and an active module is selected, the active-module reference is
re-resolved by id against the (sorted) list -- it is updated to the found
element and left unchanged when no element has that id. -/
def onModulesSnapshot (docs : List ModuleRec) (st : ViewState) : ViewState :=
  let sorted := sortModulesByOrder docs
  let base : ViewState := { st with modules := sorted }
  match st.activeModule with
  | some am =>
    if st.currentView = "module" ∨ st.currentView = "topic" then
      match sorted.find? (fun m => m.id == am.id) with
      | some updated => { base with activeModule := some updated }
      | none => base
    else base
  | none => base

/-! ### Source prompt texts used as concrete inputs -/

/-- The system prompt of the lab generation call (src/App.jsx line 533). -/
def labSystemPrompt : String :=
  "Design one concise practice exercise or Lab Instruction suitable for a developer based on the content. The output should be a single JSON object containing three fields: 'problemStatement' (short User Story), 'steps' (an array of 3-5 technical steps), and 'expectedOutcome' (a clear final result description). Respond only with a single JSON object."

/-- The system prompt of the module-structure generation call (src/App.jsx
line 391). -/
def courseSystemPrompt : String :=
  "You are a senior curriculum designer. Generate a comprehensive course structure for a specified course aimed at entry-level IT professionals. The output must be structured into 8 distinct modules. Respond only with a JSON array object containing 'title' and 'objective' for each module."

/-! ### Proof-side builders and concrete inputs -/

/-- The `topics` records `addTopicsFrom mid j ts` writes when the id counter
starts at `n`. -/
def mkTopicRecs (mid : Nat) : Nat → Nat → List GenTopic → List TopicRec
  | _, _, [] => []
  | j, n, t :: ts => mkTopicRec mid j n t :: mkTopicRecs mid (j + 1) (n + 1) ts

/-- The `modules` records, `topics` records and final id counter the
generate-course module loop produces when started at module index `i` and
id counter `n` (proof-side description of `courseModulesLoop` on runs where
no topic call throws). -/
def loopBuild (cid : Nat)
    (tr : Nat → Except ApiError (Option (List GenTopic))) :
    Nat → Nat → List GenModule → List ModuleRec × List TopicRec × Nat
  | _, n, [] => ([], [], n)
  | i, n, m :: ms =>
    let topicsHere : List TopicRec :=
      match tr i with
      | .ok (some ts) => mkTopicRecs n 0 (n + 1) ts
      | _ => []
    let rest := loopBuild cid tr (i + 1) (n + 1 + topicsHere.length) ms
    (mkModuleRec cid i n m :: rest.1, topicsHere ++ rest.2.1, rest.2.2)

/-- The `assets` records the MCQ insertion loop writes when the id counter
starts at `n`. -/
def mkMcqAssetRecs (topicId : Nat) : Nat → List GenMcq → List AssetRec
  | _, [] => []
  | n, m :: ms => mkMcqAssetRec topicId n m :: mkMcqAssetRecs topicId (n + 1) ms

/-- A JSON parser accepting exactly the text "good" (stand-in for
`JSON.parse` in the retry counterexample). -/
def parseOnlyGood : String → Option Unit :=
  fun s => if s = "good" then some () else none

/-- Service replies whose first attempt returns unparseable text and whose
later attempts return parseable text. -/
def respMalformedThenGood : Nat → ServiceResp :=
  fun i => .success (some (if i = 0 then "not json" else "good"))

/-- Service replies whose first attempt returns no textual payload and whose
later attempts return parseable text. -/
def respEmptyThenGood : Nat → ServiceResp :=
  fun i => if i = 0 then .success none else .success (some "good")

/-- Witness store for the generate-course claims: one prior course, empty
other collections, id counter at 1. -/
def c1Store : Store :=
  ⟨[⟨0, "Old Course", "draft", "u"⟩], [], [], [], 1, []⟩

/-- Witness module array for the generate-course claims. -/
def c1Mods : List GenModule :=
  [⟨some "M1", some "O1"⟩, ⟨some "M2", none⟩]

/-- Witness topic replies for C1: both modules get arrays. -/
def c1Tr : Nat → Except ApiError (Option (List GenTopic)) :=
  fun k =>
    if k = 0 then .ok (some [⟨some "T1", some "C1"⟩, ⟨none, none⟩])
    else .ok (some [⟨some "T3", none⟩])

/-- Witness topic replies for C10: the second module's reply parses but is
not an array. -/
def c10Tr : Nat → Except ApiError (Option (List GenTopic)) :=
  fun k => if k = 0 then .ok (some [⟨some "T1", none⟩]) else .ok none

/-- A store with all collections empty and the id counter at 0, used as a
concrete starting point for the asset claims. -/
def freshStore : Store := ⟨[], [], [], [], 0, []⟩

/-- An MCQ item whose `correct_answer_index` is the JSON number 0.5: it
parses against the declared schema (NUMBER), its JS `Number(...)` coercion
is 0.5 (truthy), and the code persists it unchanged. -/
def mcqHalf : GenMcq :=
  ⟨some "Q1", some ["a", "b", "c", "d"], some (mkRat 1 2)⟩

/-- A store holding one pre-existing `mcq` asset for topic 7 and one for
topic 8, used by the generate-assessment witness. -/
def c5Store : Store :=
  ⟨[], [], [],
   [⟨0, 7, "mcq", .mcq (some "old") (some ["w", "x", "y", "z"]) 1⟩,
    ⟨1, 8, "mcq", .mcq (some "other topic") none 2⟩],
   2, []⟩

/-- First-run MCQ items for the generate-assessment witness. -/
def c5Items1 : List GenMcq :=
  [⟨some "Qa", some ["a", "b", "c", "d"], some 2⟩,
   ⟨some "Qb", none, none⟩]

/-- Second-run MCQ items for the generate-assessment witness. -/
def c5Items2 : List GenMcq :=
  [⟨some "Qc", some ["e", "f", "g", "h"], some 3⟩]

/-- Lab replies for the generate-lab witness: two successful generations
followed by a failed call. -/
def c4Labs : List (Except ApiError (Option GenLab)) :=
  [.ok (some ⟨some "P1", some ["s1", "s2"], some "E1"⟩),
   .ok (some ⟨some "P2", none, none⟩),
   .error .noContent]

/-! ### Claim C2: Resilient Caller -/

/-- C2: with the maximum of 5 attempts, a wrapped operation that fails on
attempts `1..k` (`k ≤ 4`) and succeeds on attempt `k+1` yields the success
value after exactly `k+1` invocations, with the sleeps between attempts
being the first `k` of 1000, 2000, 4000, 8000 time-units in that order; an
operation failing on all 5 attempts raises the error of the 5th attempt
after exactly 5 invocations (hence no 6th invocation and no sixth-attempt
sleep). -/
theorem withRetry_success_and_exhaustion :
    (∀ (E A : Type) (fn : Nat → Except E A) (k : Nat) (v : A),
        k ≤ 4 →
        (∀ j, j < k → ∃ e, fn j = .error e) →
        fn k = .ok v →
        withRetry fn 5 =
          ⟨some (.ok v), (List.range k).map (fun j => 1000 * 2 ^ j), k + 1⟩) ∧
    (∀ (E A : Type) (fn : Nat → Except E A) (e4 : E),
        (∀ j, j < 4 → ∃ e, fn j = .error e) →
        fn 4 = .error e4 →
        withRetry fn 5 = ⟨some (.error e4), [1000, 2000, 4000, 8000], 5⟩) := by
  constructor
  · intro E A fn k v hk hfail hsucc
    interval_cases k
    · simp [withRetry, withRetryGo, hsucc]
    · obtain ⟨e0, h0⟩ := hfail 0 (by omega)
      simp [withRetry, withRetryGo, h0, hsucc]
      decide
    · obtain ⟨e0, h0⟩ := hfail 0 (by omega)
      obtain ⟨e1, h1⟩ := hfail 1 (by omega)
      simp [withRetry, withRetryGo, h0, h1, hsucc]
      decide
    · obtain ⟨e0, h0⟩ := hfail 0 (by omega)
      obtain ⟨e1, h1⟩ := hfail 1 (by omega)
      obtain ⟨e2, h2⟩ := hfail 2 (by omega)
      simp [withRetry, withRetryGo, h0, h1, h2, hsucc]
      decide
    · obtain ⟨e0, h0⟩ := hfail 0 (by omega)
      obtain ⟨e1, h1⟩ := hfail 1 (by omega)
      obtain ⟨e2, h2⟩ := hfail 2 (by omega)
      obtain ⟨e3, h3⟩ := hfail 3 (by omega)
      simp [withRetry, withRetryGo, h0, h1, h2, h3, hsucc]
      decide
  · intro E A fn e4 hfail h4
    obtain ⟨e0, h0⟩ := hfail 0 (by omega)
    obtain ⟨e1, h1⟩ := hfail 1 (by omega)
    obtain ⟨e2, h2⟩ := hfail 2 (by omega)
    obtain ⟨e3, h3⟩ := hfail 3 (by omega)
    simp [withRetry, withRetryGo, h0, h1, h2, h3, h4]

/-- Witness for C2: a thunk failing twice then succeeding returns the value
after 3 invocations and sleeps 1000, 2000; a thunk failing always raises the
5th error after exactly 5 invocations. -/
theorem withRetry_success_and_exhaustion_witness :
    withRetry (fun j => if j < 2 then Except.error j else Except.ok 99) 5 =
      ⟨some (.ok 99), (List.range 2).map (fun j => 1000 * 2 ^ j), 3⟩ ∧
    withRetry (fun j : Nat => (Except.error (10 * j) : Except Nat Nat)) 5 =
      ⟨some (.error 40), [1000, 2000, 4000, 8000], 5⟩ := by
  constructor
  · exact withRetry_success_and_exhaustion.1 Nat Nat
      (fun j => if j < 2 then Except.error j else Except.ok 99) 2 99
      (by omega) (fun j hj => ⟨j, by interval_cases j <;> rfl⟩) rfl
  · exact withRetry_success_and_exhaustion.2 Nat Nat
      (fun j => Except.error (10 * j)) 40
      (fun j hj => ⟨10 * j, rfl⟩) rfl

/-! ### Claim C7: Generation Client failures -/

/-- C7: a service response with no textual payload (absent candidate text,
or the empty -- falsy -- text) makes the call fail with the no-content
(EmptyResponse) error; with structured output requested, a returned text
whose trimmed form the JSON parser rejects makes the call fail with the
invalid-JSON (MalformedJson) error carrying that raw trimmed text. -/
theorem processGeminiResponse_empty_and_malformed :
    (∀ (J : Type) (parse : String → Option J) (isJson : Bool),
        processGeminiResponse parse isJson (.success none) =
          .error .noContent ∧
        processGeminiResponse parse isJson (.success (some "")) =
          .error .noContent) ∧
    (∀ (J : Type) (parse : String → Option J) (t : String),
        t ≠ "" → parse (jsTrim t) = none →
        processGeminiResponse parse true (.success (some t)) =
          .error (.invalidJson (jsTrim t))) := by
  constructor
  · intro J parse isJson
    exact ⟨rfl, rfl⟩
  · intro J parse t ht hp
    simp [processGeminiResponse, ht, hp]

/-- Witness for C7 at a parser that rejects everything and the concrete text
"oops". -/
theorem processGeminiResponse_empty_and_malformed_witness :
    (processGeminiResponse (fun _ => (none : Option Nat)) true
        (.success none) = .error .noContent ∧
      processGeminiResponse (fun _ => (none : Option Nat)) true
        (.success (some "")) = .error .noContent) ∧
    processGeminiResponse (fun _ => (none : Option Nat)) true
      (.success (some "oops")) = .error (.invalidJson (jsTrim "oops")) := by
  exact ⟨processGeminiResponse_empty_and_malformed.1 Nat (fun _ => none) true,
    processGeminiResponse_empty_and_malformed.2 Nat (fun _ => none) "oops"
      (by decide) rfl⟩

/-! ### Claim C6: schema selection -/

/-- C6: with structured output requested, a system prompt containing the
single-object marker text yields the declared single-object schema whose
properties are exactly the lab-asset fields; any other system prompt yields
the declared array-of-objects schema whose item properties include the
superset of module, topic, MCQ and lab fields. -/
theorem declaredResponseSchema_selection :
    (∀ sys : String, jsIncludes sys singleObjectMarker = true →
        declaredResponseSchema sys true = some (.objectOf labObjectProps) ∧
        labObjectProps.map Prod.fst =
          ["problemStatement", "steps", "expectedOutcome"]) ∧
    (∀ sys : String, jsIncludes sys singleObjectMarker = false →
        declaredResponseSchema sys true =
          some (.arrayOf (.objectOf genericItemProps)) ∧
        ∀ f ∈ ["title", "objective", "topic_title", "content_draft",
               "question", "options", "correct_answer_index",
               "problemStatement", "steps", "expectedOutcome"],
          f ∈ genericItemProps.map Prod.fst) := by
  constructor
  · intro sys h
    exact ⟨by simp [declaredResponseSchema, h], by decide⟩
  · intro sys h
    exact ⟨by simp [declaredResponseSchema, h], by decide⟩

set_option maxRecDepth 20000 in
/-- Witness for C6 at the two system prompts of the source: the lab prompt
contains the marker, the course-structure prompt does not. -/
theorem declaredResponseSchema_selection_witness :
    (declaredResponseSchema labSystemPrompt true =
        some (.objectOf labObjectProps) ∧
      labObjectProps.map Prod.fst =
        ["problemStatement", "steps", "expectedOutcome"]) ∧
    (declaredResponseSchema courseSystemPrompt true =
        some (.arrayOf (.objectOf genericItemProps)) ∧
      ∀ f ∈ ["title", "objective", "topic_title", "content_draft",
             "question", "options", "correct_answer_index",
             "problemStatement", "steps", "expectedOutcome"],
        f ∈ genericItemProps.map Prod.fst) := by
  exact ⟨declaredResponseSchema_selection.1 labSystemPrompt (by decide),
    declaredResponseSchema_selection.2 courseSystemPrompt (by decide)⟩

/-! ### Claim C3: there is no non-retried error class -/

/-- Counterexample to C3: the first attempt of this generation call fails
with the invalid-JSON (MalformedJson) error, yet the Resilient Caller
retries it -- the wrapped operation is invoked a second time (calls = 2,
with a 1000 time-unit sleep in between) and the run returns the second
attempt's success instead of surfacing the MalformedJson failure
immediately. -/
theorem malformedJson_retried_counterexample :
    processGeminiResponse parseOnlyGood true (respMalformedThenGood 0) =
      .error (.invalidJson "not json") ∧
    generationCall parseOnlyGood respMalformedThenGood =
      ⟨some (.ok (.inl ())), [1000], 2⟩ := by
  exact ⟨by decide, by decide⟩

/-- C3 amended: the Resilient Caller performs no error classification --
every failure of a generation request, including the EmptyResponse and
MalformedJson generation-output errors, is retried exactly like a transient
network failure (up to the attempt cap); in particular a first-attempt
failure of any kind followed by a second-attempt success is retried once
(two invocations, one 1000 time-unit sleep) and the success is returned. -/
theorem generation_errors_all_retried {J : Type} (parse : String → Option J)
    (resp : Nat → ServiceResp) (e : ApiError) (v : J ⊕ String)
    (h0 : processGeminiResponse parse true (resp 0) = .error e)
    (h1 : processGeminiResponse parse true (resp 1) = .ok v) :
    generationCall parse resp = ⟨some (.ok v), [1000], 2⟩ := by
  simp [generationCall, withRetry, withRetryGo, h0, h1]

/-- Witness for the amended C3: an EmptyResponse failure on the first
attempt is retried and the second attempt's parsed value is returned. -/
theorem generation_errors_all_retried_witness :
    generationCall parseOnlyGood respEmptyThenGood =
      ⟨some (.ok (.inl ())), [1000], 2⟩ :=
  generation_errors_all_retried parseOnlyGood respEmptyThenGood
    .noContent (.inl ()) (by decide) (by decide)

/-! ### Claim C8: modules notification while an active module is selected -/

/-- C8: on a modules-collection notification received while an active module
is selected (the module or topic view with an active-module reference), the
local modules slice becomes the notified snapshot sorted by `order`
ascending (a permutation of the snapshot, pairwise ordered), and the
active-module reference is re-resolved by id: when some snapshot element
carries the active id the reference becomes such an element, and when no
element carries it the reference keeps the previous, now stale, module
object -- it is not cleared. -/
theorem onModulesSnapshot_sort_and_reresolve
    (docs : List ModuleRec) (st : ViewState) (am : ModuleRec)
    (ham : st.activeModule = some am)
    (hview : st.currentView = "module" ∨ st.currentView = "topic") :
    ((onModulesSnapshot docs st).modules).Perm docs ∧
    ((onModulesSnapshot docs st).modules).Pairwise
      (fun a b => a.order ≤ b.order) ∧
    ((∃ m ∈ docs, m.id = am.id) →
      ∃ u, (onModulesSnapshot docs st).activeModule = some u ∧
        u.id = am.id ∧ u ∈ docs) ∧
    ((∀ m ∈ docs, m.id ≠ am.id) →
      (onModulesSnapshot docs st).activeModule = some am) := by
  have hperm : (sortModulesByOrder docs).Perm docs :=
    List.mergeSort_perm docs _
  have hsorted : (sortModulesByOrder docs).Pairwise
      (fun a b => a.order ≤ b.order) := by
    have h := @List.sorted_mergeSort ModuleRec
      (fun a b : ModuleRec => decide (a.order ≤ b.order))
      (fun a b c hab hbc => by
        simp only [decide_eq_true_eq] at *; omega)
      (fun a b => by
        simp only [Bool.or_eq_true, decide_eq_true_eq]; omega)
      docs
    exact h.imp (fun hab => by simpa using hab)
  cases hfind : (sortModulesByOrder docs).find? (fun m => m.id == am.id) with
  | none =>
    have hmods : (onModulesSnapshot docs st).modules = sortModulesByOrder docs := by
      simp [onModulesSnapshot, ham, hview, hfind]
    have hact : (onModulesSnapshot docs st).activeModule = some am := by
      simp [onModulesSnapshot, ham, hview, hfind]
    refine ⟨by rw [hmods]; exact hperm, by rw [hmods]; exact hsorted, ?_, ?_⟩
    · rintro ⟨m, hm, hid⟩
      exfalso
      have hnone := List.find?_eq_none.mp hfind m (hperm.mem_iff.mpr hm)
      simp [hid] at hnone
    · intro _
      exact hact
  | some u =>
    have hmods : (onModulesSnapshot docs st).modules = sortModulesByOrder docs := by
      simp [onModulesSnapshot, ham, hview, hfind]
    have hact : (onModulesSnapshot docs st).activeModule = some u := by
      simp [onModulesSnapshot, ham, hview, hfind]
    have hu_mem : u ∈ docs :=
      hperm.mem_iff.mp (List.mem_of_find?_eq_some hfind)
    have hu_id : u.id = am.id := by
      have := List.find?_some hfind
      simpa using this
    refine ⟨by rw [hmods]; exact hperm, by rw [hmods]; exact hsorted, ?_, ?_⟩
    · intro _
      exact ⟨u, hact, hu_id, hu_mem⟩
    · intro hnone
      exact absurd hu_id (hnone u hu_mem)

/-- Witness for C8 at the spec's example: notification
`[(id 2, order 2), (id 1, order 1)]` with active module id 1 in the module
view. -/
theorem onModulesSnapshot_sort_and_reresolve_witness :
    ((onModulesSnapshot [⟨2, 0, none, none, 2⟩, ⟨1, 0, none, none, 1⟩]
        ⟨[], some ⟨1, 0, none, none, 1⟩, "module"⟩).modules).Perm
      [⟨2, 0, none, none, 2⟩, ⟨1, 0, none, none, 1⟩] ∧
    ((onModulesSnapshot [⟨2, 0, none, none, 2⟩, ⟨1, 0, none, none, 1⟩]
        ⟨[], some ⟨1, 0, none, none, 1⟩, "module"⟩).modules).Pairwise
      (fun a b => a.order ≤ b.order) ∧
    ((∃ m ∈ [⟨2, 0, none, none, 2⟩, (⟨1, 0, none, none, 1⟩ : ModuleRec)],
        m.id = (⟨1, 0, none, none, 1⟩ : ModuleRec).id) →
      ∃ u, (onModulesSnapshot [⟨2, 0, none, none, 2⟩, ⟨1, 0, none, none, 1⟩]
          ⟨[], some ⟨1, 0, none, none, 1⟩, "module"⟩).activeModule = some u ∧
        u.id = (⟨1, 0, none, none, 1⟩ : ModuleRec).id ∧
        u ∈ [⟨2, 0, none, none, 2⟩, (⟨1, 0, none, none, 1⟩ : ModuleRec)]) ∧
    ((∀ m ∈ [⟨2, 0, none, none, 2⟩, (⟨1, 0, none, none, 1⟩ : ModuleRec)],
        m.id ≠ (⟨1, 0, none, none, 1⟩ : ModuleRec).id) →
      (onModulesSnapshot [⟨2, 0, none, none, 2⟩, ⟨1, 0, none, none, 1⟩]
          ⟨[], some ⟨1, 0, none, none, 1⟩, "module"⟩).activeModule =
        some ⟨1, 0, none, none, 1⟩) :=
  onModulesSnapshot_sort_and_reresolve
    [⟨2, 0, none, none, 2⟩, ⟨1, 0, none, none, 1⟩]
    ⟨[], some ⟨1, 0, none, none, 1⟩, "module"⟩
    ⟨1, 0, none, none, 1⟩ rfl (Or.inl rfl)

/-! ### Characterization of the generate-course loops

Proof-side builders describing exactly which records the loops append. -/

theorem mkTopicRecs_length (mid : Nat) :
    ∀ (ts : List GenTopic) (j n : Nat),
      (mkTopicRecs mid j n ts).length = ts.length
  | [], _, _ => rfl
  | _ :: ts, j, n => by
    simp [mkTopicRecs, mkTopicRecs_length mid ts (j + 1) (n + 1)]

theorem mkTopicRecs_map_order (mid : Nat) :
    ∀ (ts : List GenTopic) (j n : Nat),
      (mkTopicRecs mid j n ts).map TopicRec.order =
        List.range' (j + 1) ts.length
  | [], _, _ => rfl
  | t :: ts, j, n => by
    simp [mkTopicRecs, mkTopicRec, List.range'_succ,
      mkTopicRecs_map_order mid ts (j + 1) (n + 1)]

theorem mkTopicRecs_moduleId (mid : Nat) :
    ∀ (ts : List GenTopic) (j n : Nat),
      ∀ t ∈ mkTopicRecs mid j n ts, t.moduleId = mid
  | [], _, _ => by simp [mkTopicRecs]
  | t :: ts, j, n => by
    simp only [mkTopicRecs, List.mem_cons]
    rintro x (rfl | hx)
    · rfl
    · exact mkTopicRecs_moduleId mid ts (j + 1) (n + 1) x hx

theorem addTopicsFrom_eq (mid : Nat) :
    ∀ (ts : List GenTopic) (j : Nat) (s : Store),
      addTopicsFrom mid j ts s =
        { s with
          topics := s.topics ++ mkTopicRecs mid j s.nextId ts,
          nextId := s.nextId + ts.length,
          log := s.log ++ (mkTopicRecs mid j s.nextId ts).map
            (fun t => Op.addTopic t.id) }
  | [], j, s => by simp [addTopicsFrom, mkTopicRecs]
  | t :: ts, j, s => by
    obtain ⟨cs, ms, tps, asts, nid, lg⟩ := s
    rw [addTopicsFrom, addTopicsFrom_eq mid ts (j + 1)]
    simp [mkTopicRecs, mkTopicRec, List.append_assoc]
    omega

theorem loopBuild_modules_length (cid : Nat)
    (tr : Nat → Except ApiError (Option (List GenTopic))) :
    ∀ (ms : List GenModule) (i n : Nat),
      (loopBuild cid tr i n ms).1.length = ms.length
  | [], _, _ => rfl
  | m :: ms, i, n => by
    simp [loopBuild, loopBuild_modules_length cid tr ms]

theorem loopBuild_map_order (cid : Nat)
    (tr : Nat → Except ApiError (Option (List GenTopic))) :
    ∀ (ms : List GenModule) (i n : Nat),
      (loopBuild cid tr i n ms).1.map ModuleRec.order =
        List.range' (i + 1) ms.length
  | [], _, _ => rfl
  | m :: ms, i, n => by
    simp [loopBuild, mkModuleRec, List.range'_succ,
      loopBuild_map_order cid tr ms (i + 1)]

theorem loopBuild_courseId (cid : Nat)
    (tr : Nat → Except ApiError (Option (List GenTopic))) :
    ∀ (ms : List GenModule) (i n : Nat),
      ∀ mr ∈ (loopBuild cid tr i n ms).1, mr.courseId = cid
  | [], _, _ => by simp [loopBuild]
  | m :: ms, i, n => by
    simp only [loopBuild, List.mem_cons]
    rintro x (rfl | hx)
    · rfl
    · exact loopBuild_courseId cid tr ms (i + 1) _ x hx

theorem loopBuild_map_title (cid : Nat)
    (tr : Nat → Except ApiError (Option (List GenTopic))) :
    ∀ (ms : List GenModule) (i n : Nat),
      (loopBuild cid tr i n ms).1.map ModuleRec.title =
        ms.map GenModule.title
  | [], _, _ => rfl
  | m :: ms, i, n => by
    simp [loopBuild, mkModuleRec, loopBuild_map_title cid tr ms (i + 1)]

theorem loopBuild_map_objective (cid : Nat)
    (tr : Nat → Except ApiError (Option (List GenTopic))) :
    ∀ (ms : List GenModule) (i n : Nat),
      (loopBuild cid tr i n ms).1.map ModuleRec.objective =
        ms.map GenModule.objective
  | [], _, _ => rfl
  | m :: ms, i, n => by
    simp [loopBuild, mkModuleRec, loopBuild_map_objective cid tr ms (i + 1)]

theorem loopBuild_module_id_ge (cid : Nat)
    (tr : Nat → Except ApiError (Option (List GenTopic))) :
    ∀ (ms : List GenModule) (i n : Nat),
      ∀ mr ∈ (loopBuild cid tr i n ms).1, n ≤ mr.id
  | [], _, _ => by simp [loopBuild]
  | m :: ms, i, n => by
    simp only [loopBuild, List.mem_cons]
    rintro x (rfl | hx)
    · simp [mkModuleRec]
    · have := loopBuild_module_id_ge cid tr ms (i + 1) _ x hx
      omega

theorem loopBuild_topic_moduleId_ge (cid : Nat)
    (tr : Nat → Except ApiError (Option (List GenTopic))) :
    ∀ (ms : List GenModule) (i n : Nat),
      ∀ t ∈ (loopBuild cid tr i n ms).2.1, n ≤ t.moduleId
  | [], _, _ => by simp [loopBuild]
  | m :: ms, i, n => by
    simp only [loopBuild, List.mem_append]
    rintro x (hx | hx)
    · match htr : tr i with
      | .ok (some ts) =>
        rw [htr] at hx
        simp only at hx
        have := mkTopicRecs_moduleId n ts 0 (n + 1) x hx
        omega
      | .ok none => rw [htr] at hx; simp at hx
      | .error e => rw [htr] at hx; simp at hx
    · have := loopBuild_topic_moduleId_ge cid tr ms (i + 1) _ x hx
      omega

theorem mkTopicRecs_filter_self (mid : Nat) (ts : List GenTopic) (j n : Nat) :
    (mkTopicRecs mid j n ts).filter (fun t => t.moduleId == mid) =
      mkTopicRecs mid j n ts :=
  List.filter_eq_self.mpr (fun t ht => by
    simp [mkTopicRecs_moduleId mid ts j n t ht])

theorem mkTopicRecs_filter_ne (mid : Nat) (ts : List GenTopic) (j n x : Nat)
    (hx : x ≠ mid) :
    (mkTopicRecs mid j n ts).filter (fun t => t.moduleId == x) = [] :=
  List.filter_eq_nil_iff.mpr (fun t ht => by
    have := mkTopicRecs_moduleId mid ts j n t ht
    simp only [beq_iff_eq]
    omega)

theorem loopBuild_filter_lt (cid : Nat)
    (tr : Nat → Except ApiError (Option (List GenTopic)))
    (ms : List GenModule) (i n x : Nat) (hx : x < n) :
    (loopBuild cid tr i n ms).2.1.filter (fun t => t.moduleId == x) = [] :=
  List.filter_eq_nil_iff.mpr (fun t ht => by
    have := loopBuild_topic_moduleId_ge cid tr ms i n t ht
    simp only [beq_iff_eq]
    omega)

theorem loopBuild_topics_filter (cid : Nat)
    (tr : Nat → Except ApiError (Option (List GenTopic))) :
    ∀ (ms : List GenModule) (i n k : Nat) (mr : ModuleRec),
      (loopBuild cid tr i n ms).1[k]? = some mr →
      ((loopBuild cid tr i n ms).2.1.filter
          (fun t => t.moduleId == mr.id)).map TopicRec.order =
        (match tr (i + k) with
          | .ok (some ts) => List.range' 1 ts.length
          | _ => [])
  | [], i, n, k, mr => by simp [loopBuild]
  | m :: ms, i, n, k, mr => by
    intro hmr
    cases k with
    | zero =>
      simp only [loopBuild, List.getElem?_cons_zero, Option.some.injEq] at hmr
      subst hmr
      simp only [loopBuild, List.filter_append, List.map_append, Nat.add_zero,
        mkModuleRec]
      cases htr : tr i with
      | error e =>
        simp only [htr]
        rw [loopBuild_filter_lt cid tr ms (i + 1) _ n (by omega)]
        simp
      | ok o =>
        cases o with
        | none =>
          simp only [htr]
          rw [loopBuild_filter_lt cid tr ms (i + 1) _ n (by omega)]
          simp
        | some ts =>
          simp only [htr]
          rw [mkTopicRecs_filter_self n ts 0 (n + 1),
            loopBuild_filter_lt cid tr ms (i + 1) _ n (by omega)]
          simp [mkTopicRecs_map_order]
    | succ k =>
      simp only [loopBuild, List.getElem?_cons_succ] at hmr
      have hmem : mr ∈ (loopBuild cid tr (i + 1)
          (n + 1 + (match tr i with
            | .ok (some ts) => mkTopicRecs n 0 (n + 1) ts
            | _ => []).length) ms).1 := by
        exact List.getElem?_mem hmr
      have hid : n < mr.id := by
        have := loopBuild_module_id_ge cid tr ms (i + 1) _ mr hmem
        omega
      have harith : i + 1 + k = i + (k + 1) := by omega
      have hrec := loopBuild_topics_filter cid tr ms (i + 1)
        (n + 1 + (match tr i with
          | .ok (some ts) => mkTopicRecs n 0 (n + 1) ts
          | _ => []).length) k mr hmr
      rw [harith] at hrec
      simp only [loopBuild, List.filter_append, List.map_append]
      rw [hrec]
      cases htr : tr i with
      | error e => simp [htr] at hrec ⊢
      | ok o =>
        cases o with
        | none => simp [htr] at hrec ⊢
        | some ts =>
          simp only [htr]
          rw [mkTopicRecs_filter_ne n ts 0 (n + 1) mr.id (by omega)]
          simp

theorem courseModulesLoop_eq (cid : Nat)
    (tr : Nat → Except ApiError (Option (List GenTopic))) :
    ∀ (ms : List GenModule) (i : Nat) (s : Store),
      (∀ k, k < ms.length → ∃ o, tr (i + k) = .ok o) →
      ∃ lrest,
        courseModulesLoop cid tr i ms s =
          ({ s with
             modules := s.modules ++ (loopBuild cid tr i s.nextId ms).1,
             topics := s.topics ++ (loopBuild cid tr i s.nextId ms).2.1,
             nextId := (loopBuild cid tr i s.nextId ms).2.2,
             log := s.log ++ lrest }, none)
  | [], i, s, _ => by
    refine ⟨[], ?_⟩
    simp [courseModulesLoop, loopBuild]
  | m :: ms, i, s, h => by
    obtain ⟨o, ho⟩ := h 0 (by simp)
    rw [Nat.add_zero] at ho
    have hnext : ∀ k, k < ms.length → ∃ o, tr (i + 1 + k) = .ok o := by
      intro k hk
      have := h (k + 1) (by simp; omega)
      rwa [show i + (k + 1) = i + 1 + k by omega] at this
    cases o with
    | none =>
      obtain ⟨lrest, hrec⟩ := courseModulesLoop_eq cid tr ms (i + 1)
        { s with
          modules := s.modules ++ [mkModuleRec cid i s.nextId m],
          nextId := s.nextId + 1,
          log := s.log ++ [Op.addModule s.nextId] } hnext
      refine ⟨Op.addModule s.nextId :: lrest, ?_⟩
      simp only [courseModulesLoop, ho]
      rw [hrec]
      obtain ⟨cs, mds, tps, asts, nid, lg⟩ := s
      simp [loopBuild, ho, List.append_assoc]
    | some ts =>
      obtain ⟨lrest, hrec⟩ := courseModulesLoop_eq cid tr ms (i + 1)
        (addTopicsFrom s.nextId 0 ts
          { s with
            modules := s.modules ++ [mkModuleRec cid i s.nextId m],
            nextId := s.nextId + 1,
            log := s.log ++ [Op.addModule s.nextId] }) hnext
      refine ⟨Op.addModule s.nextId ::
        ((mkTopicRecs s.nextId 0 (s.nextId + 1) ts).map
          (fun t => Op.addTopic t.id) ++ lrest), ?_⟩
      simp only [courseModulesLoop, ho]
      rw [hrec, addTopicsFrom_eq]
      obtain ⟨cs, mds, tps, asts, nid, lg⟩ := s
      simp [loopBuild, ho, mkTopicRecs_length, List.append_assoc]

/-- Master specification of a completed generate-course run: with a
non-blank course name, a parsed non-empty module array, every topic call
returning (an array or not), and a store whose topics reference only
already-allocated module ids, the run completes without error; the courses
collection afterwards holds exactly the new course; the log shows every old
course deleted before the new course is inserted; the new module records are
appended in order with the right metadata; and the topics stored for the
`k`-th new module are exactly those of its topic reply (orders `1..len`),
or none when that reply was not an array. -/
theorem handleGenerateCourse_run_spec
    (courseName userId : String) (ms : List GenModule)
    (tr : Nat → Except ApiError (Option (List GenTopic))) (s : Store)
    (hname : jsTrim courseName ≠ "")
    (hne : ms ≠ [])
    (htr : ∀ k, k < ms.length → ∃ o, tr k = .ok o)
    (hold : ∀ t ∈ s.topics, t.moduleId < s.nextId) :
    ∃ (s' : Store) (newMods : List ModuleRec) (lrest : List Op),
      handleGenerateCourse courseName userId (.ok (some ms)) tr s =
        (s', none) ∧
      s'.courses = [⟨s.nextId, courseName, "draft", userId⟩] ∧
      s'.log = s.log ++ s.courses.map (fun c => Op.deleteCourse c.id) ++
        Op.addCourse s.nextId :: lrest ∧
      s'.modules = s.modules ++ newMods ∧
      newMods.length = ms.length ∧
      newMods.map ModuleRec.order = List.range' 1 ms.length ∧
      (∀ mr ∈ newMods, mr.courseId = s.nextId) ∧
      newMods.map ModuleRec.title = ms.map GenModule.title ∧
      newMods.map ModuleRec.objective = ms.map GenModule.objective ∧
      (∀ (k : Nat) (mr : ModuleRec), newMods[k]? = some mr →
        ((s'.topics.filter (fun t => t.moduleId == mr.id)).map
            TopicRec.order) =
          (match tr k with
            | .ok (some ts) => List.range' 1 ts.length
            | _ => [])) := by
  have hemp : ms.isEmpty = false := by
    cases ms with
    | nil => exact absurd rfl hne
    | cons a l => rfl
  have htr0 : ∀ k, k < ms.length → ∃ o, tr (0 + k) = .ok o := by
    intro k hk
    rw [Nat.zero_add]
    exact htr k hk
  obtain ⟨lrest, hloop⟩ := courseModulesLoop_eq s.nextId tr ms 0
    { courses := [⟨s.nextId, courseName, "draft", userId⟩],
      modules := s.modules,
      topics := s.topics,
      assets := s.assets,
      nextId := s.nextId + 1,
      log := s.log ++ s.courses.map (fun c => Op.deleteCourse c.id) ++
        [Op.addCourse s.nextId] } htr0
  have hrun : handleGenerateCourse courseName userId (.ok (some ms)) tr s =
      ({ courses := [⟨s.nextId, courseName, "draft", userId⟩],
         modules := s.modules ++ (loopBuild s.nextId tr 0 (s.nextId + 1) ms).1,
         topics := s.topics ++ (loopBuild s.nextId tr 0 (s.nextId + 1) ms).2.1,
         assets := s.assets,
         nextId := (loopBuild s.nextId tr 0 (s.nextId + 1) ms).2.2,
         log := (s.log ++ s.courses.map (fun c => Op.deleteCourse c.id) ++
           [Op.addCourse s.nextId]) ++ lrest }, none) := by
    unfold handleGenerateCourse
    rw [if_neg hname]
    simp only [hemp, Bool.false_eq_true, if_false, deleteAllCourses,
      List.nil_append]
    rw [hloop]
  refine ⟨_, (loopBuild s.nextId tr 0 (s.nextId + 1) ms).1, lrest, hrun,
    rfl, ?_, rfl, loopBuild_modules_length s.nextId tr ms 0 (s.nextId + 1),
    loopBuild_map_order s.nextId tr ms 0 (s.nextId + 1),
    loopBuild_courseId s.nextId tr ms 0 (s.nextId + 1),
    loopBuild_map_title s.nextId tr ms 0 (s.nextId + 1),
    loopBuild_map_objective s.nextId tr ms 0 (s.nextId + 1), ?_⟩
  · simp [List.append_assoc]
  · intro k mr hk
    have hmem : mr ∈ (loopBuild s.nextId tr 0 (s.nextId + 1) ms).1 :=
      List.getElem?_mem hk
    have hid : s.nextId + 1 ≤ mr.id :=
      loopBuild_module_id_ge s.nextId tr ms 0 (s.nextId + 1) mr hmem
    have hnil : s.topics.filter (fun t => t.moduleId == mr.id) = [] :=
      List.filter_eq_nil_iff.mpr (fun t ht => by
        have := hold t ht
        simp only [beq_iff_eq]
        omega)
    have hnew := loopBuild_topics_filter s.nextId tr ms 0 (s.nextId + 1) k mr hk
    rw [Nat.zero_add] at hnew
    show ((s.topics ++ (loopBuild s.nextId tr 0 (s.nextId + 1) ms).2.1).filter
        (fun t => t.moduleId == mr.id)).map TopicRec.order = _
    rw [List.filter_append, hnil, List.nil_append, hnew]

/-! ### Claim C1: generate-course persistence -/

/-- C1: for every generate-course run with a non-blank course name whose
module-generation call returns a non-empty array of modules (and whose topic
calls all return): every pre-existing Course of the caller is deleted before
the new Course is inserted (the log shows the deletions strictly before the
insertion, and the courses collection afterwards holds exactly the new
course); the `i`-th generated module (0-based) is persisted as a Module
record with order `i + 1` referencing the new course id; and each module
whose topic call returned an array of `k` topics has exactly `k` Topic
records scoped to its id, with orders `1..k`. -/
theorem generateCourse_deletes_and_persists
    (courseName userId : String) (ms : List GenModule)
    (tr : Nat → Except ApiError (Option (List GenTopic))) (s : Store)
    (hname : jsTrim courseName ≠ "")
    (hne : ms ≠ [])
    (htr : ∀ k, k < ms.length → ∃ o, tr k = .ok o)
    (hold : ∀ t ∈ s.topics, t.moduleId < s.nextId) :
    ∃ (s' : Store) (newMods : List ModuleRec) (lrest : List Op),
      handleGenerateCourse courseName userId (.ok (some ms)) tr s =
        (s', none) ∧
      s'.courses = [⟨s.nextId, courseName, "draft", userId⟩] ∧
      s'.log = s.log ++ s.courses.map (fun c => Op.deleteCourse c.id) ++
        Op.addCourse s.nextId :: lrest ∧
      s'.modules = s.modules ++ newMods ∧
      newMods.map ModuleRec.order = List.range' 1 ms.length ∧
      (∀ mr ∈ newMods, mr.courseId = s.nextId) ∧
      newMods.map ModuleRec.title = ms.map GenModule.title ∧
      (∀ (k : Nat) (mr : ModuleRec) (ts : List GenTopic),
        newMods[k]? = some mr → tr k = .ok (some ts) →
        ((s'.topics.filter (fun t => t.moduleId == mr.id)).map
            TopicRec.order) = List.range' 1 ts.length) := by
  obtain ⟨s', newMods, lrest, hrun, hcourses, hlog, hmods, _, horder, hcid,
    htitle, _, hfilter⟩ :=
    handleGenerateCourse_run_spec courseName userId ms tr s hname hne htr hold
  refine ⟨s', newMods, lrest, hrun, hcourses, hlog, hmods, horder, hcid,
    htitle, ?_⟩
  intro k mr ts hk htrk
  have := hfilter k mr hk
  rwa [htrk] at this

/-- Witness for C1 at a concrete prior store, two generated modules and
their topic replies. -/
theorem generateCourse_deletes_and_persists_witness :
    ∃ (s' : Store) (newMods : List ModuleRec) (lrest : List Op),
      handleGenerateCourse "X" "u" (.ok (some c1Mods)) c1Tr c1Store =
        (s', none) ∧
      s'.courses = [⟨c1Store.nextId, "X", "draft", "u"⟩] ∧
      s'.log = c1Store.log ++
        c1Store.courses.map (fun c => Op.deleteCourse c.id) ++
        Op.addCourse c1Store.nextId :: lrest ∧
      s'.modules = c1Store.modules ++ newMods ∧
      newMods.map ModuleRec.order = List.range' 1 c1Mods.length ∧
      (∀ mr ∈ newMods, mr.courseId = c1Store.nextId) ∧
      newMods.map ModuleRec.title = c1Mods.map GenModule.title ∧
      (∀ (k : Nat) (mr : ModuleRec) (ts : List GenTopic),
        newMods[k]? = some mr → c1Tr k = .ok (some ts) →
        ((s'.topics.filter (fun t => t.moduleId == mr.id)).map
            TopicRec.order) = List.range' 1 ts.length) :=
  generateCourse_deletes_and_persists "X" "u" c1Mods c1Tr c1Store
    (by decide) (by decide)
    (fun k _ => by
      match k with
      | 0 => exact ⟨_, rfl⟩
      | Nat.succ n => exact ⟨_, rfl⟩)
    (by simp [c1Store])

/-! ### Claim C10: a non-array topic reply is skipped silently -/

/-- C10: in generate-course, when the topic call of the `k`-th module
returns a parsed value that is not an array (and every other call also
returns), the run still completes without any error, all modules are
persisted (the loop continues past module `k`), and zero Topic records exist
for the `k`-th module's id. -/
theorem generateCourse_nonarray_topics_skipped
    (courseName userId : String) (ms : List GenModule)
    (tr : Nat → Except ApiError (Option (List GenTopic))) (s : Store)
    (k : Nat)
    (hname : jsTrim courseName ≠ "")
    (hne : ms ≠ [])
    (htr : ∀ j, j < ms.length → ∃ o, tr j = .ok o)
    (hold : ∀ t ∈ s.topics, t.moduleId < s.nextId)
    (hk : k < ms.length)
    (htrk : tr k = .ok none) :
    ∃ (s' : Store) (newMods : List ModuleRec),
      handleGenerateCourse courseName userId (.ok (some ms)) tr s =
        (s', none) ∧
      s'.modules = s.modules ++ newMods ∧
      newMods.length = ms.length ∧
      ∃ mr, newMods[k]? = some mr ∧
        s'.topics.filter (fun t => t.moduleId == mr.id) = [] := by
  obtain ⟨s', newMods, lrest, hrun, _, _, hmods, hlen, _, _, _, _, hfilter⟩ :=
    handleGenerateCourse_run_spec courseName userId ms tr s hname hne htr hold
  have hk' : k < newMods.length := by rw [hlen]; exact hk
  refine ⟨s', newMods, hrun, hmods, hlen, newMods[k], ?_, ?_⟩
  · exact List.getElem?_eq_getElem hk'
  · have := hfilter k newMods[k] (List.getElem?_eq_getElem hk')
    rw [htrk] at this
    exact List.map_eq_nil_iff.mp this

/-- Witness for C10 at a concrete run whose second topic reply is not an
array. -/
theorem generateCourse_nonarray_topics_skipped_witness :
    ∃ (s' : Store) (newMods : List ModuleRec),
      handleGenerateCourse "X" "u" (.ok (some c1Mods)) c10Tr c1Store =
        (s', none) ∧
      s'.modules = c1Store.modules ++ newMods ∧
      newMods.length = c1Mods.length ∧
      ∃ mr, newMods[1]? = some mr ∧
        s'.topics.filter (fun t => t.moduleId == mr.id) = [] :=
  generateCourse_nonarray_topics_skipped "X" "u" c1Mods c10Tr c1Store 1
    (by decide) (by decide)
    (fun j _ => by
      match j with
      | 0 => exact ⟨_, rfl⟩
      | Nat.succ n => exact ⟨_, rfl⟩)
    (by simp [c1Store])
    (by decide) rfl

/-! ### Characterization of the generate-assessment loops -/

theorem deleteAssetsLoop_fields :
    ∀ (ids : List Nat) (s : Store),
      (deleteAssetsLoop ids s).courses = s.courses ∧
      (deleteAssetsLoop ids s).modules = s.modules ∧
      (deleteAssetsLoop ids s).topics = s.topics ∧
      (deleteAssetsLoop ids s).nextId = s.nextId ∧
      (deleteAssetsLoop ids s).log = s.log ++ ids.map Op.deleteAsset
  | [], s => by simp [deleteAssetsLoop]
  | i :: is, s => by
    obtain ⟨h1, h2, h3, h4, h5⟩ := deleteAssetsLoop_fields is
      { s with assets := s.assets.filter (fun a => a.id ≠ i),
               log := s.log ++ [Op.deleteAsset i] }
    rw [deleteAssetsLoop]
    refine ⟨h1, h2, h3, h4, ?_⟩
    rw [h5]
    simp

theorem deleteAssetsLoop_assets_mem :
    ∀ (ids : List Nat) (s : Store) (a : AssetRec),
      a ∈ (deleteAssetsLoop ids s).assets → a ∈ s.assets ∧ a.id ∉ ids
  | [], s, a => by simp [deleteAssetsLoop]
  | i :: is, s, a => by
    intro h
    rw [deleteAssetsLoop] at h
    obtain ⟨h1, h2⟩ := deleteAssetsLoop_assets_mem is _ a h
    rw [List.mem_filter] at h1
    obtain ⟨ha, hne⟩ := h1
    refine ⟨ha, ?_⟩
    simp only [List.mem_cons, not_or]
    exact ⟨by simpa using hne, h2⟩

theorem mkMcqAssetRecs_length (topicId : Nat) :
    ∀ (l : List GenMcq) (n : Nat),
      (mkMcqAssetRecs topicId n l).length = l.length
  | [], _ => rfl
  | m :: l, n => by
    simp [mkMcqAssetRecs, mkMcqAssetRecs_length topicId l (n + 1)]

theorem mkMcqAssetRecs_shape (topicId : Nat) :
    ∀ (l : List GenMcq) (n : Nat),
      ∀ a ∈ mkMcqAssetRecs topicId n l, a.topicId = topicId ∧ a.type = "mcq"
  | [], _ => by simp [mkMcqAssetRecs]
  | m :: l, n => by
    simp only [mkMcqAssetRecs, List.mem_cons]
    rintro a (rfl | ha)
    · exact ⟨rfl, rfl⟩
    · exact mkMcqAssetRecs_shape topicId l (n + 1) a ha

theorem mkMcqAssetRecs_map_payload (topicId : Nat) :
    ∀ (l : List GenMcq) (n : Nat),
      (mkMcqAssetRecs topicId n l).map AssetRec.payload =
        l.map (fun m => AssetPayload.mcq m.question m.options
          (coercedCorrectIndex m.correct_answer_index))
  | [], _ => rfl
  | m :: l, n => by
    simp [mkMcqAssetRecs, mkMcqAssetRec,
      mkMcqAssetRecs_map_payload topicId l (n + 1)]

theorem addMcqAssetsLoop_eq (topicId : Nat) :
    ∀ (l : List GenMcq) (s : Store),
      addMcqAssetsLoop topicId l s =
        { s with
          assets := s.assets ++ mkMcqAssetRecs topicId s.nextId l,
          nextId := s.nextId + l.length,
          log := s.log ++ (mkMcqAssetRecs topicId s.nextId l).map
            (fun a => Op.addAsset a.id) }
  | [], s => by simp [addMcqAssetsLoop, mkMcqAssetRecs]
  | m :: l, s => by
    obtain ⟨cs, mds, tps, asts, nid, lg⟩ := s
    rw [addMcqAssetsLoop, addMcqAssetsLoop_eq topicId l]
    simp [mkMcqAssetRecs, mkMcqAssetRec, List.append_assoc]
    omega

/-- One completed generate-assessment run issued with the local `mcqs` slice
reflecting the store: it succeeds, and afterwards the store's `mcq` assets
for the topic are exactly the freshly inserted records; the log shows the
deletions of all prior `mcq` assets of the topic strictly before the
insertions. -/
theorem handleGenerateMCQs_run (topicId : Nat) (l : List GenMcq) (s : Store)
    (hl : l ≠ []) :
    ∃ s',
      handleGenerateMCQs topicId ((mcqAssetsOf topicId s).map AssetRec.id)
        (.ok (some l)) s = (s', none) ∧
      mcqAssetsOf topicId s' = mkMcqAssetRecs topicId s.nextId l ∧
      s'.log = s.log ++
        ((mcqAssetsOf topicId s).map AssetRec.id).map Op.deleteAsset ++
        (mkMcqAssetRecs topicId s.nextId l).map (fun a => Op.addAsset a.id) := by
  have hemp : l.isEmpty = false := by
    cases l with
    | nil => exact absurd rfl hl
    | cons a t => rfl
  obtain ⟨hc, hm, ht, hn, hlog⟩ :=
    deleteAssetsLoop_fields ((mcqAssetsOf topicId s).map AssetRec.id) s
  refine ⟨addMcqAssetsLoop topicId l
    (deleteAssetsLoop ((mcqAssetsOf topicId s).map AssetRec.id) s),
    ?_, ?_, ?_⟩
  · unfold handleGenerateMCQs
    simp only [hemp, Bool.false_eq_true, if_false]
  · rw [addMcqAssetsLoop_eq, hn]
    show ((deleteAssetsLoop ((mcqAssetsOf topicId s).map AssetRec.id)
        s).assets ++ mkMcqAssetRecs topicId s.nextId l).filter _ = _
    rw [List.filter_append]
    have hdel : ((deleteAssetsLoop ((mcqAssetsOf topicId s).map AssetRec.id)
        s).assets).filter
          (fun a => a.topicId == topicId && a.type == "mcq") = [] := by
      refine List.filter_eq_nil_iff.mpr (fun a ha hpa => ?_)
      obtain ⟨hmem, hnot⟩ := deleteAssetsLoop_assets_mem _ s a ha
      simp only [Bool.and_eq_true, beq_iff_eq] at hpa
      exact hnot (List.mem_map.mpr ⟨a, by
        simp [mcqAssetsOf, List.mem_filter, hmem, hpa.1, hpa.2], rfl⟩)
    have hkeep : (mkMcqAssetRecs topicId s.nextId l).filter
        (fun a => a.topicId == topicId && a.type == "mcq") =
          mkMcqAssetRecs topicId s.nextId l :=
      List.filter_eq_self.mpr (fun a ha => by
        obtain ⟨h1, h2⟩ := mkMcqAssetRecs_shape topicId l s.nextId a ha
        simp [h1, h2])
    rw [hdel, hkeep, List.nil_append]
  · rw [addMcqAssetsLoop_eq, hn, hlog]

/-! ### Claim C5: generate-assessment does not accumulate MCQs -/

/-- C5: running generate-assessment twice in sequence on one topic (each
run's generation call returning a non-empty parsed array, and the local
`mcqs` slice reflecting the store at the start of each run) leaves exactly
the second run's MCQ items persisted as `mcq` assets for that topic -- the
asset payloads equal the second item list under the code's coercions -- and
in the second run every `mcq` asset existing before it is deleted before the
run's insertions (visible in the log ordering). -/
theorem mcqs_regeneration_no_accumulation
    (topicId : Nat) (l1 l2 : List GenMcq) (s : Store)
    (h1 : l1 ≠ []) (h2 : l2 ≠ []) :
    ∃ s1 s2,
      handleGenerateMCQs topicId ((mcqAssetsOf topicId s).map AssetRec.id)
        (.ok (some l1)) s = (s1, none) ∧
      handleGenerateMCQs topicId ((mcqAssetsOf topicId s1).map AssetRec.id)
        (.ok (some l2)) s1 = (s2, none) ∧
      (mcqAssetsOf topicId s2).map AssetRec.payload =
        l2.map (fun m => AssetPayload.mcq m.question m.options
          (coercedCorrectIndex m.correct_answer_index)) ∧
      ∃ insOps,
        s2.log = s1.log ++
          ((mcqAssetsOf topicId s1).map AssetRec.id).map Op.deleteAsset ++
          insOps ∧
        insOps.length = l2.length := by
  obtain ⟨s1, hrun1, _, _⟩ := handleGenerateMCQs_run topicId l1 s h1
  obtain ⟨s2, hrun2, hassets2, hlog2⟩ := handleGenerateMCQs_run topicId l2 s1 h2
  refine ⟨s1, s2, hrun1, hrun2, ?_, ?_⟩
  · rw [hassets2, mkMcqAssetRecs_map_payload]
  · exact ⟨_, hlog2, by
      rw [List.length_map, mkMcqAssetRecs_length]⟩

/-- Witness for C5: two runs on topic 7 over a store holding prior `mcq`
assets for topics 7 and 8. -/
theorem mcqs_regeneration_no_accumulation_witness :
    ∃ s1 s2,
      handleGenerateMCQs 7 ((mcqAssetsOf 7 c5Store).map AssetRec.id)
        (.ok (some c5Items1)) c5Store = (s1, none) ∧
      handleGenerateMCQs 7 ((mcqAssetsOf 7 s1).map AssetRec.id)
        (.ok (some c5Items2)) s1 = (s2, none) ∧
      (mcqAssetsOf 7 s2).map AssetRec.payload =
        c5Items2.map (fun m => AssetPayload.mcq m.question m.options
          (coercedCorrectIndex m.correct_answer_index)) ∧
      ∃ insOps,
        s2.log = s1.log ++
          ((mcqAssetsOf 7 s1).map AssetRec.id).map Op.deleteAsset ++ insOps ∧
        insOps.length = c5Items2.length :=
  mcqs_regeneration_no_accumulation 7 c5Items1 c5Items2 c5Store
    (by decide) (by decide)

/-! ### Claim C9: the persisted correctIndex -/

/-- Counterexample to C9: an MCQ item whose `correct_answer_index` is the
JSON number 0.5 (valid against the declared NUMBER schema) is persisted with
`correctIndex` 0.5 -- `Number(x) || 0` passes any truthy number through
unchanged -- and 0.5 is not an integer (its reduced denominator is 2, not
1), so the persisted field is not always an integer. -/
theorem correctIndex_not_integer_counterexample :
    (handleGenerateMCQs 7 [] (.ok (some [mcqHalf])) freshStore).2 = none ∧
    ((handleGenerateMCQs 7 [] (.ok (some [mcqHalf]))
        freshStore).1.assets).map AssetRec.payload =
      [AssetPayload.mcq (some "Q1") (some ["a", "b", "c", "d"])
        (mkRat 1 2)] ∧
    (mkRat 1 2).den ≠ 1 := by
  exact ⟨by decide, by decide, by decide⟩

/-- C9 amended: the persisted `correctIndex` is the JS numeric coercion of
the item's `correct_answer_index` with fallback 0: the number itself when
the field holds a number (integral or not; 0 stays 0), and 0 when the field
is missing or its coercion is invalid (NaN).  No rounding to an integer is
performed. -/
theorem correctIndex_numeric_coercion
    (topicId : Nat) (slice : List Nat) (l : List GenMcq) (s : Store)
    (hl : l ≠ []) :
    ∃ s' newRecs,
      handleGenerateMCQs topicId slice (.ok (some l)) s = (s', none) ∧
      s'.assets = (deleteAssetsLoop slice s).assets ++ newRecs ∧
      newRecs.map AssetRec.payload =
        l.map (fun m => AssetPayload.mcq m.question m.options
          (match m.correct_answer_index with
            | none => 0
            | some q => if q = 0 then 0 else q)) := by
  have hemp : l.isEmpty = false := by
    cases l with
    | nil => exact absurd rfl hl
    | cons a t => rfl
  obtain ⟨_, _, _, hn, _⟩ := deleteAssetsLoop_fields slice s
  refine ⟨addMcqAssetsLoop topicId l (deleteAssetsLoop slice s),
    mkMcqAssetRecs topicId s.nextId l, ?_, ?_, ?_⟩
  · unfold handleGenerateMCQs
    simp only [hemp, Bool.false_eq_true, if_false]
  · rw [addMcqAssetsLoop_eq, hn]
  · exact mkMcqAssetRecs_map_payload topicId l s.nextId

/-- Witness for the amended C9: one item carrying the number 0.5, one item
with the field missing. -/
theorem correctIndex_numeric_coercion_witness :
    ∃ s' newRecs,
      handleGenerateMCQs 7 [] (.ok (some [mcqHalf, ⟨some "Q2", none, none⟩]))
        freshStore = (s', none) ∧
      s'.assets = (deleteAssetsLoop [] freshStore).assets ++ newRecs ∧
      newRecs.map AssetRec.payload =
        [mcqHalf, ⟨some "Q2", none, none⟩].map
          (fun m => AssetPayload.mcq m.question m.options
            (match m.correct_answer_index with
              | none => 0
              | some q => if q = 0 then 0 else q)) :=
  correctIndex_numeric_coercion 7 [] [mcqHalf, ⟨some "Q2", none, none⟩]
    freshStore (by decide)

/-! ### Claim C4: at most one lab asset per topic -/

theorem runLabStep_count_le_one (topicId : Nat) (title : String)
    (d : Except ApiError (Option GenLab)) (s : Store)
    (h : (labAssetsOf topicId s).length ≤ 1) :
    (labAssetsOf topicId (runLabStep topicId title d s)).length ≤ 1 := by
  match d with
  | .error e => exact h
  | .ok none => exact h
  | .ok (some g) =>
    cases hf : jsFalsyString g.problemStatement with
    | true =>
      simp only [runLabStep, handleGenerateLab, hf, if_true]
      exact h
    | false =>
      match hlab : labAssetsOf topicId s with
      | [] =>
        have hslice : labSliceOf topicId s = none := by
          simp [labSliceOf, hlab]
        simp only [runLabStep, handleGenerateLab, hf, Bool.false_eq_true,
          if_false, hslice]
        show ((s.assets ++ [mkLabAssetRec topicId s.nextId title g]).filter
          _).length ≤ 1
        rw [List.filter_append]
        show ((labAssetsOf topicId s) ++ _).length ≤ 1
        rw [hlab]
        simp [mkLabAssetRec]
      | a :: rest =>
        have hrest : rest = [] := by
          rw [hlab] at h
          simpa using h
        subst hrest
        have hslice : labSliceOf topicId s = some a.id := by
          simp [labSliceOf, hlab]
        simp only [runLabStep, handleGenerateLab, hf, Bool.false_eq_true,
          if_false, hslice]
        show ((s.assets.filter (fun x => x.id ≠ a.id) ++
          [mkLabAssetRec topicId _ title g]).filter _).length ≤ 1
        rw [List.filter_append]
        have hcomm : (s.assets.filter (fun x => x.id ≠ a.id)).filter
            (fun x => x.topicId == topicId && x.type == "lab") =
            (labAssetsOf topicId s).filter (fun x => x.id ≠ a.id) :=
          List.filter_comm _ _ _
        rw [hcomm, hlab]
        simp [mkLabAssetRec]

/-- C4: for every topic and every finite sequence of generate-lab
invocations on it (each issued with the local lab slice reflecting the
store, as `runLabSeq` does), if at most one `lab` asset for the topic exists
initially then at most one exists after the sequence completes: each
successful run deletes the existing lab asset, if any, before inserting the
new one, and failed runs leave the store unchanged. -/
theorem lab_asset_at_most_one (topicId : Nat) (title : String)
    (ds : List (Except ApiError (Option GenLab))) (s : Store)
    (h : (labAssetsOf topicId s).length ≤ 1) :
    (labAssetsOf topicId (runLabSeq topicId title ds s)).length ≤ 1 := by
  induction ds generalizing s with
  | nil => exact h
  | cons d ds ih =>
    exact ih _ (runLabStep_count_le_one topicId title d s h)

/-- Witness for C4: three generate-lab invocations (two successful, one
failed) on a store with no lab assets. -/
theorem lab_asset_at_most_one_witness :
    (labAssetsOf 7 (runLabSeq 7 "T" c4Labs freshStore)).length ≤ 1 :=
  lab_asset_at_most_one 7 "T" c4Labs freshStore (by decide)

end AICourse
